import Mathlib

/-! ip-radar: the IP-change detection and notification pipeline

A shallow embedding of `main.go`: the interface scanner `getRealIPs`, the
change detector inside `checkIPChanges` (with the process-wide map
`previousIPs` passed explicitly), and the retry loop of
`sendEmailNotification`.

Go strings are modelled by Lean strings, Go slices by lists, and the Go map
`map[string]string` by an association list read through its first entry for
a key. What the operating system returns (`net.Interfaces()`, `Addrs()`) and
whether each `smtp.SendMail` call succeeds are explicit inputs. The output
of `fmt.Println` and `fmt.Printf` in the scanner and the detector is left out.
-/

namespace IPRadar

/-! ## Data model -/

/-- The Go struct `IPInfo`: one address bound to one interface. The field
`Type` of the source is `Type_` here (`Type` is reserved). -/
structure IPInfo where
  InterfaceName : String
  IPAddress : String
  Type_ : String
  deriving DecidableEq, Repr

/-- The Go type `map[string]string`, as a list of (key, value) entries. -/
abbrev StringMap := List (String × String)

/-- The Go lookup `v, exists := m[k]`: `some v` when the key exists. -/
def StringMap.lookup : StringMap → String → Option String
  | [], _ => none
  | (k', v) :: rest, k => if k' = k then some v else StringMap.lookup rest k

/-- The Go assignment `m[k] = v`: overwrite the entry of `k`, or add one. -/
def StringMap.store : StringMap → String → String → StringMap
  | [], k, v => [(k, v)]
  | (k', v') :: rest, k, v =>
    if k' = k then (k, v) :: rest else (k', v') :: StringMap.store rest k v

/-- The keys of a map. -/
def StringMap.keys (m : StringMap) : List String := m.map Prod.fst

/-- The initial value of the global `previousIPs`: `make(map[string]string)`. -/
def previousIPsInit : StringMap := []

/-! ## Change detector (`checkIPChanges`) -/

/-- The key of line 94: `ipInfo.InterfaceName + "-" + ipInfo.IPAddress`. -/
def observationKey (ipInfo : IPInfo) : String :=
  ipInfo.InterfaceName ++ "-" ++ ipInfo.IPAddress

/-- The state of the loop of lines 93-100: the map `previousIPs` and the
slice `newIPs`. -/
structure DetectState where
  previousIPs : StringMap
  newIPs : List IPInfo
  deriving DecidableEq, Repr

/-- One iteration of the loop of lines 93-100. -/
def detectStep (st : DetectState) (ipInfo : IPInfo) : DetectState :=
  let key := observationKey ipInfo
  match st.previousIPs.lookup key with
  | none =>
    { previousIPs := st.previousIPs.store key ipInfo.Type_,
      newIPs := st.newIPs ++ [ipInfo] }
  | some _ => st

/-- The loop `for _, ipInfo := range currentIPs` of lines 93-100, run from a
given state. -/
def detectLoop : List IPInfo → DetectState → DetectState
  | [], st => st
  | ipInfo :: rest, st => detectLoop rest (detectStep st ipInfo)

/-- Lines 92-100: `var newIPs []IPInfo` followed by the loop. -/
def detectNew (currentIPs : List IPInfo) (previousIPs : StringMap) : DetectState :=
  detectLoop currentIPs { previousIPs := previousIPs, newIPs := [] }

/-- What one call of `checkIPChanges` does: the value of `previousIPs`
afterwards, the slice `newIPs` it computed, and the calls of
`sendEmailNotification` it made, each with its argument. -/
structure CycleResult where
  previousIPs : StringMap
  newIPs : List IPInfo
  notifierCalls : List (List IPInfo)
  deriving DecidableEq, Repr

/-- The function `checkIPChanges` (lines 88-106), given the slice returned by
`getRealIPs()` on line 89 and the current value of the global `previousIPs`. -/
def checkIPChanges (currentIPs : List IPInfo) (previousIPs : StringMap) : CycleResult :=
  let st := detectNew currentIPs previousIPs
  if st.newIPs.length > 0 then
    { previousIPs := st.previousIPs, newIPs := st.newIPs, notifierCalls := [st.newIPs] }
  else
    { previousIPs := st.previousIPs, newIPs := st.newIPs, notifierCalls := [] }

/-- The poll loop of `main` (lines 54-60) over a finite run: one call of
`checkIPChanges` per scan, threading `previousIPs`. -/
def runCycles : List (List IPInfo) → StringMap → StringMap
  | [], previousIPs => previousIPs
  | scan :: rest, previousIPs => runCycles rest (checkIPChanges scan previousIPs).previousIPs

/-- The detector result as the specification words it: the elements of the
scan, in input order, whose key is absent from the known set and has not
occurred earlier in the scan (among the elements before its position). -/
def newSightingsSpec (known : StringMap) (scan : List IPInfo) : List IPInfo :=
  (scan.enum.filter (fun p =>
    decide (observationKey p.2 ∉ known.keys ∧
      observationKey p.2 ∉ (scan.take p.1).map observationKey))).map Prod.snd

/-! ## Go standard library used by the scanner

`strings.Contains`, `strings.HasPrefix` and the methods of `net.IP` are
library code; they are written out here from their Go definitions.
`strings.ToLower` is an argument of the scanner (`toLower`). -/

/-- Go `strings.HasPrefix` on the characters of the two strings. -/
def hasPrefixChars : List Char → List Char → Bool
  | _, [] => true
  | [], _ :: _ => false
  | c :: s, d :: p => c == d && hasPrefixChars s p

/-- Go `strings.Contains` on the characters of the two strings. -/
def containsChars : List Char → List Char → Bool
  | [], sub => hasPrefixChars [] sub
  | c :: s, sub => hasPrefixChars (c :: s) sub || containsChars s sub

/-- Go `strings.HasPrefix(s, p)`. -/
def stringsHasPrefix (s p : String) : Bool := hasPrefixChars s.data p.data

/-- Go `strings.Contains(s, substr)`. -/
def stringsContains (s substr : String) : Bool := containsChars s.data substr.data

/-- Lower-casing of the ASCII letters `A`-`Z`, every other character kept:
what `strings.ToLower` does on an ASCII string. -/
def asciiToLower (s : String) : String := String.mk (s.data.map Char.toLower)

/-- The Go type `net.IP`, a byte slice; each byte is a number below 256. -/
abbrev IP := List Nat

/-- Go `net.IPv4len`. -/
def IPv4len : Nat := 4

/-- Go `net.IPv6len`. -/
def IPv6len : Nat := 16

/-- Go `v4InV6Prefix`. -/
def v4InV6Prefix : IP := [0, 0, 0, 0, 0, 0, 0, 0, 0, 0, 0xff, 0xff]

/-- Go `net.IPv4(a, b, c, d)`: the 16-byte form of an IPv4 address. -/
def IPv4 (a b c d : Nat) : IP := v4InV6Prefix ++ [a, b, c, d]

/-- Go `net.IPv4bcast`. -/
def IPv4bcast : IP := IPv4 255 255 255 255

/-- Go `net.IPv4zero`. -/
def IPv4zero : IP := IPv4 0 0 0 0

/-- Go `net.IPv6unspecified`. -/
def IPv6unspecified : IP := List.replicate 16 0

/-- Go `net.IPv6loopback`. -/
def IPv6loopback : IP := List.replicate 15 0 ++ [1]

/-- Go `ip.To4()`: the 4-byte form, `none` for the nil result. -/
def IP.To4 (ip : IP) : Option IP :=
  if ip.length = IPv4len then some ip
  else if ip.length = IPv6len ∧ (ip.take 10).all (fun b => b == 0) ∧
      ip.getD 10 0 = 0xff ∧ ip.getD 11 0 = 0xff then some (ip.drop 12)
  else none

/-- Go `ip.Equal(x)`. -/
def IP.Equal (ip x : IP) : Bool :=
  if ip.length = x.length then ip == x
  else if ip.length = IPv4len ∧ x.length = IPv6len then
    x.take 12 == v4InV6Prefix && ip == x.drop 12
  else if ip.length = IPv6len ∧ x.length = IPv4len then
    ip.take 12 == v4InV6Prefix && ip.drop 12 == x
  else false

/-- Go `ip.IsUnspecified()`. -/
def IP.IsUnspecified (ip : IP) : Bool := ip.Equal IPv4zero || ip.Equal IPv6unspecified

/-- Go `ip.IsLoopback()`. -/
def IP.IsLoopback (ip : IP) : Bool :=
  match ip.To4 with
  | some ip4 => ip4.getD 0 0 == 127
  | none => ip.Equal IPv6loopback

/-- Go `ip.IsMulticast()`. -/
def IP.IsMulticast (ip : IP) : Bool :=
  match ip.To4 with
  | some ip4 => ip4.getD 0 0 &&& 0xf0 == 0xe0
  | none => ip.length == IPv6len && ip.getD 0 0 == 0xff

/-- Go `ip.IsLinkLocalUnicast()`. -/
def IP.IsLinkLocalUnicast (ip : IP) : Bool :=
  match ip.To4 with
  | some ip4 => ip4.getD 0 0 == 169 && ip4.getD 1 0 == 254
  | none => ip.length == IPv6len && ip.getD 0 0 == 0xfe && ip.getD 1 0 &&& 0xc0 == 0x80

/-- Go `ip.IsGlobalUnicast()`; true also for private IPv4 ranges and local
IPv6 unicast addresses. -/
def IP.IsGlobalUnicast (ip : IP) : Bool :=
  (ip.length == IPv4len || ip.length == IPv6len) &&
    !ip.Equal IPv4bcast &&
    !ip.IsUnspecified &&
    !ip.IsLoopback &&
    !ip.IsMulticast &&
    !ip.IsLinkLocalUnicast

/-- One hexadecimal digit, lower case. -/
def hexDigit (n : Nat) : Char := "0123456789abcdef".data.getD n '0'

/-- Decimal digits of a number, most significant first. -/
def decimalChars (n : Nat) : List Char := Nat.toDigits 10 n

/-- Lower-case hexadecimal digits of a number without leading zeros. -/
def hexChars (n : Nat) : List Char := Nat.toDigits 16 n

/-- Go `hexString`: two hexadecimal digits per byte. -/
def hexString (ip : IP) : List Char :=
  ip.flatMap (fun b => [hexDigit (b / 16), hexDigit (b % 16)])

/-- The eight 16-bit groups of a 16-byte address. -/
def groups16 : IP → List Nat
  | hi :: lo :: rest => (hi * 256 + lo) :: groups16 rest
  | _ => []

/-- Number of zero groups at the head of a list of groups. -/
def zeroRun : List Nat → Nat
  | 0 :: rest => zeroRun rest + 1
  | _ => 0

/-- The span `(zeroStart, zeroEnd)` of the first longest run of at least two
zero groups, `(255, 255)` when there is none. -/
def zeroSpan (groups : List Nat) : Nat × Nat :=
  (List.range 8).foldl (fun span i =>
    let l := zeroRun (groups.drop i)
    if l ≥ 2 ∧ l > span.2 - span.1 then (i, i + l) else span) (255, 255)

/-- Groups in hexadecimal joined by colons. -/
def joinGroups (groups : List Nat) : List Char :=
  (groups.map hexChars).intersperse [':'] |>.flatten

/-- The IPv6 text of eight groups, the span of zero groups written `::`. -/
def text6 (groups : List Nat) : List Char :=
  let span := zeroSpan groups
  if span.1 = 255 then joinGroups groups
  else joinGroups (groups.take span.1) ++ [':', ':'] ++ joinGroups (groups.drop span.2)

/-- The dotted decimal text of a 4-byte address. -/
def text4 (ip4 : IP) : List Char :=
  (ip4.map decimalChars).intersperse ['.'] |>.flatten

/-- Go `ip.String()`. -/
def IP.String (ip : IP) : String :=
  if ip.length = 0 then "<nil>"
  else if ip.length ≠ IPv4len ∧ ip.length ≠ IPv6len then String.mk ('?' :: hexString ip)
  else
    match ip.To4 with
    | some p4 => String.mk (text4 p4)
    | none => String.mk (text6 (groups16 ip))

/-- A value of the Go interface type `net.Addr` as `iface.Addrs()` returns
it; the field `ip` is `none` for a nil `IP`. -/
inductive Addr where
  | IPNet (ip : Option IP) (mask : List Nat)
  | IPAddr (ip : Option IP) (zone : String)
  | other (text : String)
  deriving DecidableEq, Repr

/-- A Go `net.Interface` together with what its method `Addrs()` returns. -/
structure Interface where
  Name : String
  Flags : Nat
  Addrs : Except String (List Addr)

/-- Go `net.FlagUp`. -/
def FlagUp : Nat := 1

/-- Go `net.FlagBroadcast`. -/
def FlagBroadcast : Nat := 2

/-- Go `net.FlagLoopback`. -/
def FlagLoopback : Nat := 4

/-- Go `net.FlagPointToPoint`. -/
def FlagPointToPoint : Nat := 8

/-- Go `net.FlagMulticast`. -/
def FlagMulticast : Nat := 16

/-- Go `net.FlagRunning`. -/
def FlagRunning : Nat := 32

/-! ## Interface scanner (`getRealIPs`) -/

/-- The type switch of lines 149-155: the `IP` of an address, `none` for nil. -/
def addrIP : Addr → Option IP
  | .IPNet ip _ => ip
  | .IPAddr ip _ => ip
  | .other _ => none

/-- The loop `for _, addr := range addrs` of lines 148-179, appending to `ips`. -/
def addrLoop (ifaceName : String) : List Addr → List IPInfo → List IPInfo
  | [], ips => ips
  | addr :: rest, ips =>
    match addrIP addr with
    | none => addrLoop ifaceName rest ips
    | some ip =>
      if !ip.IsGlobalUnicast || ip.IsLoopback || ip.IsLinkLocalUnicast then
        addrLoop ifaceName rest ips
      else if ip.To4.isNone && stringsHasPrefix ip.String "fe80:" then
        addrLoop ifaceName rest ips
      else
        let ipType := if ip.To4.isNone then "IPv6" else "IPv4"
        let ipInfo : IPInfo :=
          { InterfaceName := ifaceName, IPAddress := ip.String, Type_ := ipType }
        addrLoop ifaceName rest (ips ++ [ipInfo])

/-- The loop `for _, iface := range interfaces` of lines 116-180. -/
def ifaceLoop (toLower : String → String) : List Interface → List IPInfo → List IPInfo
  | [], ips => ips
  | iface :: rest, ips =>
    if iface.Flags &&& FlagLoopback ≠ 0 ∨
        iface.Flags &&& FlagPointToPoint ≠ 0 ∨
        iface.Flags &&& FlagUp = 0 then
      ifaceLoop toLower rest ips
    else if stringsContains (toLower iface.Name) "vmware" ||
        stringsContains (toLower iface.Name) "virtual" ||
        stringsContains (toLower iface.Name) "vbox" then
      ifaceLoop toLower rest ips
    else
      let isRealInterface := stringsContains (toLower iface.Name) "eth" ||
        stringsContains (toLower iface.Name) "en" ||
        stringsContains (toLower iface.Name) "wlan" ||
        stringsContains (toLower iface.Name) "wi-fi" ||
        stringsContains (toLower iface.Name) "wireless"
      if !isRealInterface then
        ifaceLoop toLower rest ips
      else
        match iface.Addrs with
        | .error _ => ifaceLoop toLower rest ips
        | .ok addrs => ifaceLoop toLower rest (addrLoop iface.Name addrs ips)

/-- The function `getRealIPs` (lines 108-183), given the function
`strings.ToLower` and what `net.Interfaces()` returns. -/
def getRealIPs (toLower : String → String)
    (interfaces : Except String (List Interface)) : List IPInfo :=
  match interfaces with
  | .error _ => []
  | .ok interfaces => ifaceLoop toLower interfaces []

/-- The interface filter as the specification words it: up, not loopback,
not point-to-point, the lower-cased name contains none of the deny-list
words and at least one of the allow-list words. -/
def interfacePasses (toLower : String → String) (iface : Interface) : Bool :=
  decide (iface.Flags &&& FlagUp ≠ 0) &&
  decide (iface.Flags &&& FlagLoopback = 0) &&
  decide (iface.Flags &&& FlagPointToPoint = 0) &&
  ["vmware", "virtual", "vbox"].all (fun w => !stringsContains (toLower iface.Name) w) &&
  ["eth", "en", "wlan", "wi-fi", "wireless"].any (fun w => stringsContains (toLower iface.Name) w)

/-- The address filter as the specification words it: global-unicast, not
loopback, not link-local, and when there is no 4-byte form the text does not
start with `fe80:`. -/
def ipPasses (ip : IP) : Bool :=
  ip.IsGlobalUnicast && !ip.IsLoopback && !ip.IsLinkLocalUnicast &&
  !(ip.To4.isNone && stringsHasPrefix ip.String "fe80:")

/-- The entry of an (interface, address) pair that passes both filters. -/
def scanEntry (toLower : String → String) (iface : Interface) (addr : Addr) : Option IPInfo :=
  match addrIP addr with
  | none => none
  | some ip =>
    if interfacePasses toLower iface && ipPasses ip then
      some { InterfaceName := iface.Name, IPAddress := ip.String,
             Type_ := if ip.To4.isNone then "IPv6" else "IPv4" }
    else none

/-- The entry of an address that passes the address filter, on an interface
of the given name. -/
def addrEntry (ifaceName : String) (addr : Addr) : Option IPInfo :=
  match addrIP addr with
  | none => none
  | some ip =>
    if ipPasses ip then
      some { InterfaceName := ifaceName, IPAddress := ip.String,
             Type_ := if ip.To4.isNone then "IPv6" else "IPv4" }
    else none

/-- The (interface, address) pairs in enumeration order: the interfaces in
order, and for each one whose `Addrs()` succeeds its addresses in order. -/
def enumeratedPairs (interfaces : List Interface) : List (Interface × Addr) :=
  interfaces.flatMap (fun iface =>
    match iface.Addrs with
    | .ok addrs => addrs.map (fun addr => (iface, addr))
    | .error _ => [])

/-- The scan as the specification words it: one entry per enumerated pair
that passes every filter, in enumeration order. -/
def scanSpec (toLower : String → String) (interfaces : List Interface) : List IPInfo :=
  (enumeratedPairs interfaces).filterMap (fun p => scanEntry toLower p.1 p.2)

/-! ## Notifier (`sendEmailNotification`) -/

/-- What the delivery part of `sendEmailNotification` does, in order. -/
inductive NotifyEvent where
  | sendMail
  | printAttemptError (attempt : Nat)
  | sleepSeconds (seconds : Nat)
  | printSuccess
  deriving DecidableEq, Repr

/-- The loop `for i := 0; i < maxRetries; i++` of lines 314-333 from a given
`i`. `sendMailOk i` tells whether the call of `smtp.SendMail` made in
iteration `i` returns a nil error. The events are appended to `trace`. -/
def sendLoop (maxRetries : Nat) (sendMailOk : Nat → Bool) (i : Nat)
    (trace : List NotifyEvent) : List NotifyEvent :=
  if i < maxRetries then
    let trace := trace ++ [NotifyEvent.sendMail]
    if !sendMailOk i then
      let trace := trace ++ [NotifyEvent.printAttemptError (i + 1)]
      if i < maxRetries - 1 then
        sendLoop maxRetries sendMailOk (i + 1) (trace ++ [NotifyEvent.sleepSeconds 2])
      else
        sendLoop maxRetries sendMailOk (i + 1) trace
    else
      trace ++ [NotifyEvent.printSuccess]
  else
    trace
termination_by maxRetries - i

/-- The delivery part of `sendEmailNotification` (lines 310-334), with
`maxRetries := 3`. The message text built on lines 186-308 is handed to
`smtp.SendMail` unchanged on every attempt and is not represented. -/
def sendEmailNotification (_newIPs : List IPInfo) (sendMailOk : Nat → Bool) :
    List NotifyEvent :=
  sendLoop 3 sendMailOk 0 []

/-- Number of delivery attempts in a trace. -/
def attempts (trace : List NotifyEvent) : Nat := trace.count NotifyEvent.sendMail

/-- The pauses in a trace, in order, each with its length in seconds. -/
def pauses : List NotifyEvent → List Nat
  | [] => []
  | NotifyEvent.sleepSeconds n :: rest => n :: pauses rest
  | _ :: rest => pauses rest

/-! ## Lemmas on the map -/

theorem StringMap.lookup_eq_none_iff (m : StringMap) (k : String) :
    m.lookup k = none ↔ k ∉ m.keys := by
  induction m with
  | nil => simp [StringMap.lookup, StringMap.keys]
  | cons e rest ih =>
    obtain ⟨k', v⟩ := e
    by_cases h : k' = k
    · simp [StringMap.lookup, StringMap.keys, h]
    · have h2 : ¬ k = k' := fun h3 => h h3.symm
      simp only [StringMap.keys] at ih
      simp [StringMap.lookup, StringMap.keys, h, h2, ih]

theorem StringMap.lookup_store (m : StringMap) (k v k' : String) :
    (m.store k v).lookup k' = if k = k' then some v else m.lookup k' := by
  induction m with
  | nil => simp [StringMap.lookup, StringMap.store]
  | cons e rest ih =>
    obtain ⟨k0, v0⟩ := e
    by_cases h : k0 = k
    · subst h
      by_cases h2 : k0 = k'
      · simp [StringMap.lookup, StringMap.store, h2]
      · simp [StringMap.lookup, StringMap.store, h2]
    · by_cases h2 : k0 = k'
      · subst h2
        have h3 : ¬ k = k0 := fun h4 => h h4.symm
        simp [StringMap.lookup, StringMap.store, h, h3]
      · simp [StringMap.lookup, StringMap.store, h, h2, ih]

theorem StringMap.mem_keys_store (m : StringMap) (k v k' : String) :
    k' ∈ (m.store k v).keys ↔ k' = k ∨ k' ∈ m.keys := by
  have h1 := StringMap.lookup_eq_none_iff (m.store k v) k'
  have h2 := StringMap.lookup_eq_none_iff m k'
  rw [StringMap.lookup_store] at h1
  by_cases h : k = k'
  · subst h
    simp at h1
    simp [h1]
  · have h3 : ¬ k' = k := fun h4 => h h4.symm
    simp only [h, if_false] at h1
    simp only [h3, false_or]
    constructor
    · intro h5
      by_contra h6
      exact (h1.mp (h2.mpr h6)) h5
    · intro h5
      by_contra h6
      exact (h2.mp (h1.mpr h6)) h5

/-! ## Lemmas on the detector loop -/

theorem detectStep_of_none (st : DetectState) (x : IPInfo)
    (h : st.previousIPs.lookup (observationKey x) = none) :
    detectStep st x =
      { previousIPs := st.previousIPs.store (observationKey x) x.Type_,
        newIPs := st.newIPs ++ [x] } := by
  simp [detectStep, h]

theorem detectStep_of_some (st : DetectState) (x : IPInfo) (v : String)
    (h : st.previousIPs.lookup (observationKey x) = some v) :
    detectStep st x = st := by
  simp [detectStep, h]

theorem detectStep_of_mem (st : DetectState) (x : IPInfo)
    (h : observationKey x ∈ st.previousIPs.keys) : detectStep st x = st := by
  cases h1 : st.previousIPs.lookup (observationKey x) with
  | none => exact absurd h ((StringMap.lookup_eq_none_iff _ _).mp h1)
  | some w => exact detectStep_of_some st x w h1

theorem detectStep_of_not_mem (st : DetectState) (x : IPInfo)
    (h : observationKey x ∉ st.previousIPs.keys) :
    detectStep st x =
      { previousIPs := st.previousIPs.store (observationKey x) x.Type_,
        newIPs := st.newIPs ++ [x] } :=
  detectStep_of_none st x ((StringMap.lookup_eq_none_iff _ _).mpr h)

theorem detectStep_keys (st : DetectState) (x : IPInfo) (k : String) :
    k ∈ (detectStep st x).previousIPs.keys ↔
      k ∈ st.previousIPs.keys ∨ k = observationKey x := by
  by_cases h : observationKey x ∈ st.previousIPs.keys
  · rw [detectStep_of_mem st x h]
    constructor
    · exact Or.inl
    · rintro (h1 | h1)
      · exact h1
      · exact h1 ▸ h
  · rw [detectStep_of_not_mem st x h]
    simp only [StringMap.mem_keys_store]
    tauto

theorem detectStep_lookup_mono (st : DetectState) (x : IPInfo) (k v : String)
    (h : st.previousIPs.lookup k = some v) :
    (detectStep st x).previousIPs.lookup k = some v := by
  cases h1 : st.previousIPs.lookup (observationKey x) with
  | none =>
    rw [detectStep_of_none st x h1]
    simp only [StringMap.lookup_store]
    by_cases h2 : observationKey x = k
    · rw [h2, h] at h1
      exact Option.noConfusion h1
    · simp [h2, h]
  | some w =>
    rw [detectStep_of_some st x w h1]
    exact h

theorem detectLoop_keys (xs : List IPInfo) (st : DetectState) (k : String) :
    k ∈ (detectLoop xs st).previousIPs.keys ↔
      k ∈ st.previousIPs.keys ∨ k ∈ xs.map observationKey := by
  induction xs generalizing st with
  | nil => simp [detectLoop]
  | cons x rest ih =>
    simp only [detectLoop, ih, detectStep_keys, List.map_cons, List.mem_cons]
    tauto

theorem detectLoop_lookup_mono (xs : List IPInfo) (st : DetectState) (k v : String)
    (h : st.previousIPs.lookup k = some v) :
    (detectLoop xs st).previousIPs.lookup k = some v := by
  induction xs generalizing st with
  | nil => simpa [detectLoop] using h
  | cons x rest ih =>
    simp only [detectLoop]
    exact ih _ (detectStep_lookup_mono st x k v h)

theorem detectLoop_all_known (xs : List IPInfo) (st : DetectState)
    (h : ∀ x ∈ xs, observationKey x ∈ st.previousIPs.keys) :
    detectLoop xs st = st := by
  induction xs generalizing st with
  | nil => rfl
  | cons x rest ih =>
    have hx : observationKey x ∈ st.previousIPs.keys := h x (List.mem_cons_self _ _)
    simp only [detectLoop, detectStep_of_mem st x hx]
    exact ih st (fun y hy => h y (List.mem_cons_of_mem _ hy))

theorem detectLoop_newIPs (xs : List IPInfo) (known : StringMap) (pre : List IPInfo)
    (st : DetectState)
    (hst : ∀ k, k ∈ st.previousIPs.keys ↔ k ∈ known.keys ∨ k ∈ pre.map observationKey) :
    (detectLoop xs st).newIPs =
      st.newIPs ++ ((xs.enumFrom pre.length).filter (fun p =>
        decide (observationKey p.2 ∉ known.keys ∧
          observationKey p.2 ∉ ((pre ++ xs).take p.1).map observationKey))).map Prod.snd := by
  induction xs generalizing pre st with
  | nil => simp [detectLoop]
  | cons x rest ih =>
    have hnext : ∀ k, k ∈ (detectStep st x).previousIPs.keys ↔
        k ∈ known.keys ∨ k ∈ (pre ++ [x]).map observationKey := by
      intro k
      rw [detectStep_keys, hst]
      simp only [List.map_append, List.mem_append, List.map_cons, List.map_nil,
        List.mem_singleton]
      tauto
    have ih2 := ih (pre ++ [x]) (detectStep st x) hnext
    have happ : pre ++ [x] ++ rest = pre ++ x :: rest := by simp
    have hlen : (pre ++ [x]).length = pre.length + 1 := by simp
    rw [happ, hlen] at ih2
    have htake : (pre ++ x :: rest).take pre.length = pre := by simp
    simp only [detectLoop, ih2, List.enumFrom_cons, List.filter_cons, htake]
    by_cases hx : observationKey x ∈ st.previousIPs.keys
    · have hcond : ¬ (observationKey x ∉ known.keys ∧
          observationKey x ∉ pre.map observationKey) := by
        rw [hst] at hx
        tauto
      rw [detectStep_of_mem st x hx]
      simp only [hcond, decide_False, Bool.false_eq_true, if_false]
    · have hcond : observationKey x ∉ known.keys ∧
          observationKey x ∉ pre.map observationKey := by
        rw [hst] at hx
        tauto
      rw [detectStep_of_not_mem st x hx]
      simp [hcond]

theorem detectNew_newIPs (xs : List IPInfo) (known : StringMap) :
    (detectNew xs known).newIPs = newSightingsSpec known xs := by
  have h := detectLoop_newIPs xs known [] { previousIPs := known, newIPs := [] }
    (by intro k; simp)
  simpa [detectNew, newSightingsSpec, List.enum] using h

theorem checkIPChanges_previousIPs (xs : List IPInfo) (known : StringMap) :
    (checkIPChanges xs known).previousIPs = (detectNew xs known).previousIPs := by
  simp only [checkIPChanges]
  split <;> rfl

theorem checkIPChanges_newIPs (xs : List IPInfo) (known : StringMap) :
    (checkIPChanges xs known).newIPs = (detectNew xs known).newIPs := by
  simp only [checkIPChanges]
  split <;> rfl

theorem runCycles_keys (scans : List (List IPInfo)) (known : StringMap) (k : String) :
    k ∈ (runCycles scans known).keys ↔
      k ∈ known.keys ∨ ∃ scan ∈ scans, ∃ x ∈ scan, observationKey x = k := by
  induction scans generalizing known with
  | nil => simp [runCycles]
  | cons scan rest ih =>
    simp only [runCycles, ih, checkIPChanges_previousIPs, detectNew, detectLoop_keys,
      List.mem_map, List.mem_cons, exists_eq_or_imp, or_assoc]

/-! ## Lemmas on the observation key -/

theorem append_sep_inj (c : Char) (l1 l2 r1 r2 : List Char)
    (h1 : c ∉ r1) (h2 : c ∉ r2) (h : l1 ++ c :: r1 = l2 ++ c :: r2) :
    l1 = l2 ∧ r1 = r2 := by
  rcases List.append_eq_append_iff.mp h with ⟨m, hl, hr⟩ | ⟨m, hl, hr⟩
  · cases m with
    | nil =>
      simp only [List.append_nil, List.nil_append, List.cons.injEq, true_and] at hl hr
      exact ⟨hl.symm, hr⟩
    | cons d m =>
      simp only [List.cons_append, List.cons.injEq] at hr
      exact absurd (hr.2 ▸ (by simp : c ∈ m ++ c :: r2)) h1
  · cases m with
    | nil =>
      simp only [List.append_nil, List.nil_append, List.cons.injEq, true_and] at hl hr
      exact ⟨hl, hr.symm⟩
    | cons d m =>
      simp only [List.cons_append, List.cons.injEq] at hr
      exact absurd (hr.2 ▸ (by simp : c ∈ m ++ c :: r1)) h2

theorem observationKey_data (a : IPInfo) :
    (observationKey a).data = a.InterfaceName.data ++ '-' :: a.IPAddress.data := by
  simp [observationKey, String.data_append]

theorem observationKey_inj (a b : IPInfo)
    (ha : '-' ∉ a.IPAddress.data) (hb : '-' ∉ b.IPAddress.data)
    (h : observationKey a = observationKey b) :
    a.InterfaceName = b.InterfaceName ∧ a.IPAddress = b.IPAddress := by
  have hd := congrArg String.data h
  rw [observationKey_data, observationKey_data] at hd
  obtain ⟨h1, h2⟩ := append_sep_inj '-' _ _ _ _ ha hb hd
  exact ⟨String.ext h1, String.ext h2⟩

theorem checkIPChanges_of_all_known (xs : List IPInfo) (known : StringMap)
    (h : ∀ x ∈ xs, observationKey x ∈ known.keys) :
    (checkIPChanges xs known).newIPs = [] ∧
    (checkIPChanges xs known).previousIPs = known ∧
    (checkIPChanges xs known).notifierCalls = [] := by
  have hd : detectNew xs known = { previousIPs := known, newIPs := [] } :=
    detectLoop_all_known xs _ h
  simp [checkIPChanges, hd]

/-! ## Theorems on the change detector -/

/-- C1: running the change detection of `checkIPChanges` on a scan and then
again on the same scan against the resulting map yields no new sighting the
second time, makes no notifier call, and leaves the map unchanged. -/
theorem detector_idempotent (X : List IPInfo) (K : StringMap) :
    (checkIPChanges X (checkIPChanges X K).previousIPs).newIPs = [] ∧
    (checkIPChanges X (checkIPChanges X K).previousIPs).previousIPs =
      (checkIPChanges X K).previousIPs ∧
    (checkIPChanges X (checkIPChanges X K).previousIPs).notifierCalls = [] := by
  have hknown : ∀ x ∈ X, observationKey x ∈ (checkIPChanges X K).previousIPs.keys := by
    intro x hx
    rw [checkIPChanges_previousIPs, detectNew, detectLoop_keys]
    exact Or.inr (List.mem_map_of_mem _ hx)
  exact checkIPChanges_of_all_known X _ hknown

/-- C2: the list of new sightings computed by `checkIPChanges` is exactly the
subsequence of the scan, in input order, of the elements whose observation
key is absent from the known map and has not occurred earlier in the scan;
with the key of (eth0, 203.0.113.5) known, the scan of that entry followed by
(eth0, 2001:db8::1, IPv6) yields exactly the IPv6 entry. -/
theorem detector_result (X : List IPInfo) (K : StringMap) :
    (checkIPChanges X K).newIPs = newSightingsSpec K X ∧
    (checkIPChanges
      [IPInfo.mk "eth0" "203.0.113.5" "IPv4", IPInfo.mk "eth0" "2001:db8::1" "IPv6"]
      [(observationKey (IPInfo.mk "eth0" "203.0.113.5" "IPv4"), "IPv4")]).newIPs =
      [IPInfo.mk "eth0" "2001:db8::1" "IPv6"] := by
  refine ⟨?_, by decide⟩
  rw [checkIPChanges_newIPs, detectNew_newIPs]

/-- C3: after one run of the change detection every observation key of the
scan is present in the known map, and every key that was in the map before
the run is still present, mapped to the same family value. -/
theorem detector_postcondition (X : List IPInfo) (K : StringMap) :
    (∀ x ∈ X, ∃ v, (checkIPChanges X K).previousIPs.lookup (observationKey x) = some v) ∧
    (∀ k v, K.lookup k = some v → (checkIPChanges X K).previousIPs.lookup k = some v) := by
  constructor
  · intro x hx
    have hmem : observationKey x ∈ (checkIPChanges X K).previousIPs.keys := by
      rw [checkIPChanges_previousIPs, detectNew, detectLoop_keys]
      exact Or.inr (List.mem_map_of_mem _ hx)
    cases hl : (checkIPChanges X K).previousIPs.lookup (observationKey x) with
    | none => exact absurd hmem ((StringMap.lookup_eq_none_iff _ _).mp hl)
    | some v => exact ⟨v, rfl⟩
  · intro k v h
    rw [checkIPChanges_previousIPs, detectNew]
    exact detectLoop_lookup_mono X _ k v h

/-- C4: after the scans S1..Sn are processed in order from the empty map,
the keys of the map are exactly the observation keys of the elements of the
scans, and feeding any of the scans again yields no new sighting (and no
notifier call). -/
theorem detector_monotone_run (scans : List (List IPInfo)) :
    (∀ k, k ∈ (runCycles scans previousIPsInit).keys ↔
      ∃ scan ∈ scans, ∃ x ∈ scan, observationKey x = k) ∧
    (∀ scan ∈ scans,
      (checkIPChanges scan (runCycles scans previousIPsInit)).newIPs = [] ∧
      (checkIPChanges scan (runCycles scans previousIPsInit)).notifierCalls = []) := by
  have hkeys : ∀ k, k ∈ (runCycles scans previousIPsInit).keys ↔
      ∃ scan ∈ scans, ∃ x ∈ scan, observationKey x = k := by
    intro k
    rw [runCycles_keys]
    simp [previousIPsInit, StringMap.keys]
  refine ⟨hkeys, ?_⟩
  intro scan hscan
  have hall := checkIPChanges_of_all_known scan (runCycles scans previousIPsInit)
    (fun x hx => (hkeys _).mpr ⟨scan, hscan, x, hx, rfl⟩)
  exact ⟨hall.1, hall.2.2⟩

/-- C8: in one call of `checkIPChanges` the notifier is called at most once;
it is called exactly when the list of new sightings is non-empty, then with
exactly that list, and never with an empty list. -/
theorem notifier_suppression (X : List IPInfo) (K : StringMap) :
    (checkIPChanges X K).notifierCalls.length ≤ 1 ∧
    ((checkIPChanges X K).notifierCalls ≠ [] ↔ (detectNew X K).newIPs ≠ []) ∧
    ((checkIPChanges X K).notifierCalls =
      if (detectNew X K).newIPs = [] then [] else [(detectNew X K).newIPs]) ∧
    [] ∉ (checkIPChanges X K).notifierCalls := by
  cases h : (detectNew X K).newIPs with
  | nil => simp [checkIPChanges, h]
  | cons x rest => simp [checkIPChanges, h]

/-! ## Theorems on the observation key -/

/-- C10: for two observations whose address strings contain no `-`, equal
keys `InterfaceName + "-" + IPAddress` force equal interface names and equal
addresses, whatever characters the interface names contain. -/
theorem observationKey_injective (a b : IPInfo)
    (ha : '-' ∉ a.IPAddress.data) (hb : '-' ∉ b.IPAddress.data)
    (h : observationKey a = observationKey b) :
    a.InterfaceName = b.InterfaceName ∧ a.IPAddress = b.IPAddress :=
  observationKey_inj a b ha hb h

/-- C10 at an interface name with two `-` and the address 2001:db8::1. -/
theorem observationKey_injective_witness :
    '-' ∉ ("2001:db8::1" : String).data ∧
    observationKey (IPInfo.mk "br-lan-eth" "2001:db8::1" "IPv6") =
      observationKey (IPInfo.mk "br-lan-eth" "2001:db8::1" "") ∧
    ("br-lan-eth" = "br-lan-eth" ∧ "2001:db8::1" = "2001:db8::1") :=
  ⟨by decide, by decide,
    observationKey_injective
      (IPInfo.mk "br-lan-eth" "2001:db8::1" "IPv6")
      (IPInfo.mk "br-lan-eth" "2001:db8::1" "")
      (by decide) (by decide) (by decide)⟩

/-! ## Theorems on the notifier -/

theorem sendEmailNotification_cases (newIPs : List IPInfo) (sendMailOk : Nat → Bool) :
    sendEmailNotification newIPs sendMailOk =
      if sendMailOk 0 then [NotifyEvent.sendMail, NotifyEvent.printSuccess]
      else if sendMailOk 1 then
        [NotifyEvent.sendMail, NotifyEvent.printAttemptError 1, NotifyEvent.sleepSeconds 2,
         NotifyEvent.sendMail, NotifyEvent.printSuccess]
      else if sendMailOk 2 then
        [NotifyEvent.sendMail, NotifyEvent.printAttemptError 1, NotifyEvent.sleepSeconds 2,
         NotifyEvent.sendMail, NotifyEvent.printAttemptError 2, NotifyEvent.sleepSeconds 2,
         NotifyEvent.sendMail, NotifyEvent.printSuccess]
      else
        [NotifyEvent.sendMail, NotifyEvent.printAttemptError 1, NotifyEvent.sleepSeconds 2,
         NotifyEvent.sendMail, NotifyEvent.printAttemptError 2, NotifyEvent.sleepSeconds 2,
         NotifyEvent.sendMail, NotifyEvent.printAttemptError 3] := by
  cases h0 : sendMailOk 0 <;> cases h1 : sendMailOk 1 <;> cases h2 : sendMailOk 2 <;>
    simp [sendEmailNotification, sendLoop, h0, h1, h2]

/-- C7: `sendEmailNotification` returns on every sequence of transport
outcomes. When the first successful attempt is the one of index `k` (counted
from 0, `k < 3`), it makes `k + 1` attempts, each failed one followed by one
pause of 2 seconds, and stops at the success. When the first three attempts
fail, it makes exactly 3 attempts with exactly 2 pauses of 2 seconds, one
after the first and one after the second failure and none after the third. -/
theorem retry_policy (newIPs : List IPInfo) (sendMailOk : Nat → Bool) :
    (∀ k, k < 3 → (∀ j, j < k → sendMailOk j = false) → sendMailOk k = true →
      sendEmailNotification newIPs sendMailOk =
        (List.range k).flatMap (fun i =>
          [NotifyEvent.sendMail, NotifyEvent.printAttemptError (i + 1),
           NotifyEvent.sleepSeconds 2]) ++
        [NotifyEvent.sendMail, NotifyEvent.printSuccess] ∧
      attempts (sendEmailNotification newIPs sendMailOk) = k + 1 ∧
      pauses (sendEmailNotification newIPs sendMailOk) = List.replicate k 2) ∧
    ((∀ j, j < 3 → sendMailOk j = false) →
      sendEmailNotification newIPs sendMailOk =
        [NotifyEvent.sendMail, NotifyEvent.printAttemptError 1, NotifyEvent.sleepSeconds 2,
         NotifyEvent.sendMail, NotifyEvent.printAttemptError 2, NotifyEvent.sleepSeconds 2,
         NotifyEvent.sendMail, NotifyEvent.printAttemptError 3] ∧
      attempts (sendEmailNotification newIPs sendMailOk) = 3 ∧
      pauses (sendEmailNotification newIPs sendMailOk) = [2, 2]) ∧
    1 ≤ attempts (sendEmailNotification newIPs sendMailOk) ∧
    attempts (sendEmailNotification newIPs sendMailOk) ≤ 3 := by
  rw [sendEmailNotification_cases]
  refine ⟨?_, ?_, ?_⟩
  · intro k hk hfail hok
    interval_cases k
    · simp [hok, attempts, pauses]
    · have h0 := hfail 0 (by decide)
      simp [hok, h0, attempts, pauses, List.range_succ]
    · have h0 := hfail 0 (by decide)
      have h1 := hfail 1 (by decide)
      simp [hok, h0, h1, attempts, pauses, List.range_succ, List.replicate]
  · intro hfail
    simp [hfail 0 (by decide), hfail 1 (by decide), hfail 2 (by decide), attempts, pauses]
  · cases h0 : sendMailOk 0 <;> cases h1 : sendMailOk 1 <;> cases h2 : sendMailOk 2 <;>
      simp [attempts]

/-! ## Theorems on the scanner -/

theorem addrLoop_eq (ifaceName : String) (addrs : List Addr) (ips : List IPInfo) :
    addrLoop ifaceName addrs ips = ips ++ addrs.filterMap (addrEntry ifaceName) := by
  induction addrs generalizing ips with
  | nil => simp [addrLoop]
  | cons addr rest ih =>
    cases hip : addrIP addr with
    | none => simp [addrLoop, addrEntry, hip, ih]
    | some ip =>
      cases hg : ip.IsGlobalUnicast <;> cases hl : ip.IsLoopback <;>
        cases hll : ip.IsLinkLocalUnicast <;> cases h4 : ip.To4.isNone <;>
        cases hp : stringsHasPrefix ip.String "fe80:" <;>
        simp [addrLoop, addrEntry, ipPasses, hip, ih, hg, hl, hll, h4, hp]

theorem scanEntry_of_passes (toLower : String → String) (iface : Interface)
    (h : interfacePasses toLower iface = true) (addr : Addr) :
    scanEntry toLower iface addr = addrEntry iface.Name addr := by
  cases hip : addrIP addr with
  | none => simp [scanEntry, addrEntry, hip]
  | some ip => simp [scanEntry, addrEntry, hip, h]

theorem scanEntry_of_not_passes (toLower : String → String) (iface : Interface)
    (h : interfacePasses toLower iface = false) (addr : Addr) :
    scanEntry toLower iface addr = none := by
  cases hip : addrIP addr with
  | none => simp [scanEntry, hip]
  | some ip => simp [scanEntry, hip, h]

theorem ifaceLoop_cons (toLower : String → String) (iface : Interface)
    (rest : List Interface) (ips : List IPInfo) :
    ifaceLoop toLower (iface :: rest) ips =
      if interfacePasses toLower iface then
        match iface.Addrs with
        | .error _ => ifaceLoop toLower rest ips
        | .ok addrs => ifaceLoop toLower rest (addrLoop iface.Name addrs ips)
      else ifaceLoop toLower rest ips := by
  rw [ifaceLoop]
  by_cases hflags : iface.Flags &&& FlagLoopback ≠ 0 ∨
      iface.Flags &&& FlagPointToPoint ≠ 0 ∨ iface.Flags &&& FlagUp = 0
  · have hpass : interfacePasses toLower iface = false := by
      simp only [interfacePasses, Bool.and_eq_false_iff, decide_eq_false_iff_not]
      tauto
    rw [if_pos hflags, hpass]
    simp
  · rw [if_neg hflags]
    have hflags2 : iface.Flags &&& FlagUp ≠ 0 ∧ iface.Flags &&& FlagLoopback = 0 ∧
        iface.Flags &&& FlagPointToPoint = 0 := by
      tauto
    cases hv1 : stringsContains (toLower iface.Name) "vmware" <;>
      cases hv2 : stringsContains (toLower iface.Name) "virtual" <;>
      cases hv3 : stringsContains (toLower iface.Name) "vbox" <;>
      cases ha : (stringsContains (toLower iface.Name) "eth" ||
        stringsContains (toLower iface.Name) "en" ||
        stringsContains (toLower iface.Name) "wlan" ||
        stringsContains (toLower iface.Name) "wi-fi" ||
        stringsContains (toLower iface.Name) "wireless") <;>
      simp [interfacePasses, hflags2, hv1, hv2, hv3, ha, Bool.or_assoc] <;>
      simp [Bool.or_assoc] at ha <;> simp [ha]

theorem ifaceLoop_eq (toLower : String → String) (interfaces : List Interface)
    (ips : List IPInfo) :
    ifaceLoop toLower interfaces ips = ips ++ scanSpec toLower interfaces := by
  induction interfaces generalizing ips with
  | nil => simp [ifaceLoop, scanSpec, enumeratedPairs]
  | cons iface rest ih =>
    have hspec : scanSpec toLower (iface :: rest) =
        (match iface.Addrs with
          | .ok addrs => addrs.filterMap (scanEntry toLower iface)
          | .error _ => []) ++ scanSpec toLower rest := by
      simp only [scanSpec, enumeratedPairs, List.flatMap_cons, List.filterMap_append]
      congr 1
      cases iface.Addrs with
      | error e => rfl
      | ok addrs => simp [List.filterMap_map, Function.comp_def]
    rw [hspec, ifaceLoop_cons]
    cases hpass : interfacePasses toLower iface with
    | false =>
      cases iface.Addrs with
      | error e => simp [ih]
      | ok addrs => simp [ih, scanEntry_of_not_passes toLower iface hpass]
    | true =>
      cases iface.Addrs with
      | error e => simp [ih]
      | ok addrs =>
        have hfm : addrs.filterMap (scanEntry toLower iface) =
            addrs.filterMap (addrEntry iface.Name) := by
          congr 1
          funext addr
          exact scanEntry_of_passes toLower iface hpass addr
        simp [ih, addrLoop_eq, hfm]

theorem getRealIPs_eq (toLower : String → String) (interfaces : List Interface) :
    getRealIPs toLower (.ok interfaces) = scanSpec toLower interfaces := by
  simp [getRealIPs, ifaceLoop_eq]

theorem interfacePasses_iff (toLower : String → String) (iface : Interface) :
    interfacePasses toLower iface = true ↔
      (iface.Flags &&& FlagUp ≠ 0 ∧ iface.Flags &&& FlagLoopback = 0 ∧
        iface.Flags &&& FlagPointToPoint = 0 ∧
        (∀ w ∈ ["vmware", "virtual", "vbox"],
          stringsContains (toLower iface.Name) w = false) ∧
        (∃ w ∈ ["eth", "en", "wlan", "wi-fi", "wireless"],
          stringsContains (toLower iface.Name) w = true)) := by
  simp [interfacePasses, and_assoc]

theorem ipPasses_iff (ip : IP) :
    ipPasses ip = true ↔
      (ip.IsGlobalUnicast = true ∧ ip.IsLoopback = false ∧ ip.IsLinkLocalUnicast = false ∧
        (ip.To4 = none → stringsHasPrefix ip.String "fe80:" = false)) := by
  cases h4 : ip.To4 <;> simp [ipPasses, and_assoc, h4]

theorem mem_scanSpec (toLower : String → String) (interfaces : List Interface) (e : IPInfo) :
    e ∈ scanSpec toLower interfaces ↔
      ∃ iface ∈ interfaces, ∃ addrs, iface.Addrs = .ok addrs ∧ ∃ addr ∈ addrs,
        ∃ ip, addrIP addr = some ip ∧ interfacePasses toLower iface = true ∧
          ipPasses ip = true ∧
          e = { InterfaceName := iface.Name, IPAddress := ip.String,
                Type_ := if ip.To4.isNone then "IPv6" else "IPv4" } := by
  simp only [scanSpec, enumeratedPairs, List.mem_filterMap, List.mem_flatMap]
  constructor
  · rintro ⟨⟨iface, addr⟩, ⟨iface2, hmem, hpair⟩, hentry⟩
    cases haddrs : iface2.Addrs with
    | error err => simp [haddrs] at hpair
    | ok addrs =>
      simp only [haddrs, List.mem_map, Prod.mk.injEq] at hpair
      obtain ⟨addr2, haddr, rfl, rfl⟩ := hpair
      refine ⟨iface2, hmem, addrs, haddrs, addr2, haddr, ?_⟩
      simp only [scanEntry] at hentry
      cases hip : addrIP addr2 with
      | none => simp [hip] at hentry
      | some ip =>
        simp only [hip, Bool.and_eq_true, Option.ite_none_right_eq_some,
          Option.some.injEq] at hentry
        exact ⟨ip, rfl, hentry.1.1, hentry.1.2, hentry.2.symm⟩
  · rintro ⟨iface, hmem, addrs, haddrs, addr, haddr, ip, hip, hpass, hipp, rfl⟩
    refine ⟨(iface, addr), ⟨iface, hmem, ?_⟩, ?_⟩
    · simp [haddrs, haddr]
    · simp [scanEntry, hip, hpass, hipp]

theorem mem_getRealIPs (toLower : String → String) (interfaces : List Interface)
    (e : IPInfo) :
    e ∈ getRealIPs toLower (.ok interfaces) ↔
      ∃ iface ∈ interfaces, ∃ addrs, iface.Addrs = .ok addrs ∧ ∃ addr ∈ addrs,
        ∃ ip, addrIP addr = some ip ∧
          (iface.Flags &&& FlagUp ≠ 0 ∧ iface.Flags &&& FlagLoopback = 0 ∧
            iface.Flags &&& FlagPointToPoint = 0 ∧
            (∀ w ∈ ["vmware", "virtual", "vbox"],
              stringsContains (toLower iface.Name) w = false) ∧
            (∃ w ∈ ["eth", "en", "wlan", "wi-fi", "wireless"],
              stringsContains (toLower iface.Name) w = true)) ∧
          (ip.IsGlobalUnicast = true ∧ ip.IsLoopback = false ∧
            ip.IsLinkLocalUnicast = false ∧
            (ip.To4 = none → stringsHasPrefix ip.String "fe80:" = false)) ∧
          e = { InterfaceName := iface.Name, IPAddress := ip.String,
                Type_ := if ip.To4.isNone then "IPv6" else "IPv4" } := by
  rw [getRealIPs_eq, mem_scanSpec]
  simp only [interfacePasses_iff, ipPasses_iff]

/-- C5: when `net.Interfaces()` succeeds, `getRealIPs` returns, in
enumeration order, one entry per (interface, address) pair that passes every
filter and nothing else: an entry is emitted exactly for the pairs whose
interface is up, not loopback, not point-to-point, has a lower-cased name
with none of "vmware", "virtual", "vbox" and at least one of "eth", "en",
"wlan", "wi-fi", "wireless", and whose address is global-unicast, not
loopback, not link-local and, without a 4-byte form, has a text not starting
with "fe80:". On ASCII names: eth0 (and ETH0) with a public IPv4 address is
included; a loopback address, a link-local IPv4 address, an fe80: address, a
VMware adapter whose name also contains "eth", and docker0 are excluded
(flags 51: up, broadcast, multicast, running). -/
theorem filtering_exclusivity (toLower : String → String) (interfaces : List Interface) :
    getRealIPs toLower (.ok interfaces) = scanSpec toLower interfaces ∧
    (∀ e, e ∈ getRealIPs toLower (.ok interfaces) ↔
      ∃ iface ∈ interfaces, ∃ addrs, iface.Addrs = .ok addrs ∧ ∃ addr ∈ addrs,
        ∃ ip, addrIP addr = some ip ∧
          (iface.Flags &&& FlagUp ≠ 0 ∧ iface.Flags &&& FlagLoopback = 0 ∧
            iface.Flags &&& FlagPointToPoint = 0 ∧
            (∀ w ∈ ["vmware", "virtual", "vbox"],
              stringsContains (toLower iface.Name) w = false) ∧
            (∃ w ∈ ["eth", "en", "wlan", "wi-fi", "wireless"],
              stringsContains (toLower iface.Name) w = true)) ∧
          (ip.IsGlobalUnicast = true ∧ ip.IsLoopback = false ∧
            ip.IsLinkLocalUnicast = false ∧
            (ip.To4 = none → stringsHasPrefix ip.String "fe80:" = false)) ∧
          e = { InterfaceName := iface.Name, IPAddress := ip.String,
                Type_ := if ip.To4.isNone then "IPv6" else "IPv4" }) ∧
    getRealIPs asciiToLower (.ok [Interface.mk "eth0" 51
        (.ok [Addr.IPNet (some (IPv4 203 0 113 5)) [255, 255, 255, 0]])]) =
      [IPInfo.mk "eth0" "203.0.113.5" "IPv4"] ∧
    getRealIPs asciiToLower (.ok [Interface.mk "ETH0" 51
        (.ok [Addr.IPNet (some (IPv4 203 0 113 5)) [255, 255, 255, 0]])]) =
      [IPInfo.mk "ETH0" "203.0.113.5" "IPv4"] ∧
    getRealIPs asciiToLower (.ok [Interface.mk "eth0" 51
        (.ok [Addr.IPNet (some (IPv4 127 0 0 1)) [255, 0, 0, 0]])]) = [] ∧
    getRealIPs asciiToLower (.ok [Interface.mk "eth0" 51
        (.ok [Addr.IPNet (some (IPv4 169 254 10 20)) [255, 255, 0, 0]])]) = [] ∧
    getRealIPs asciiToLower (.ok [Interface.mk "eth0" 51
        (.ok [Addr.IPNet (some [0xfe, 0x80, 0, 0, 0, 0, 0, 0, 0, 0, 0, 0, 0, 0, 0, 1])
          [255, 255, 255, 255, 255, 255, 255, 255, 0, 0, 0, 0, 0, 0, 0, 0]])]) = [] ∧
    getRealIPs asciiToLower (.ok [Interface.mk "VMware Ethernet Adapter" 51
        (.ok [Addr.IPNet (some (IPv4 203 0 113 5)) [255, 255, 255, 0]])]) = [] ∧
    getRealIPs asciiToLower (.ok [Interface.mk "docker0" 51
        (.ok [Addr.IPNet (some (IPv4 203 0 113 5)) [255, 255, 255, 0]])]) = [] := by
  refine ⟨getRealIPs_eq toLower interfaces, mem_getRealIPs toLower interfaces,
    ?_, ?_, ?_, ?_, ?_, ?_, ?_⟩ <;> decide

/-- C6 fails on the code: the private addresses 192.168.1.10 and 10.0.0.1,
bound to an up, non-loopback, non-point-to-point interface eth0, are both
emitted by `getRealIPs`. -/
theorem private_addresses_emitted :
    getRealIPs asciiToLower (.ok [Interface.mk "eth0" 51
        (.ok [Addr.IPNet (some (IPv4 192 168 1 10)) [255, 255, 255, 0],
              Addr.IPNet (some (IPv4 10 0 0 1)) [255, 0, 0, 0]])]) =
      [IPInfo.mk "eth0" "192.168.1.10" "IPv4", IPInfo.mk "eth0" "10.0.0.1" "IPv4"] := by
  decide

/-! ## The address text of the scanner contains no `-` -/

theorem digitChar_ne_dash (n : Nat) : Nat.digitChar n ≠ '-' := by
  by_cases h : n < 16
  · interval_cases n <;> decide
  · have hstar : Nat.digitChar n = '*' := by
      unfold Nat.digitChar
      repeat rw [if_neg (by omega)]
    rw [hstar]
    decide

theorem toDigitsCore_no_dash (base : Nat) (fuel n : Nat) (ds : List Char) (h : '-' ∉ ds) :
    '-' ∉ Nat.toDigitsCore base fuel n ds := by
  induction fuel generalizing n ds with
  | zero => simpa [Nat.toDigitsCore] using h
  | succ f ih =>
    have hd : '-' ∉ Nat.digitChar (n % base) :: ds := by
      intro hm
      rcases List.mem_cons.mp hm with h1 | h1
      · exact digitChar_ne_dash _ h1.symm
      · exact h h1
    unfold Nat.toDigitsCore
    simp only
    split
    · exact hd
    · exact ih _ _ hd

theorem toDigits_no_dash (base n : Nat) : '-' ∉ Nat.toDigits base n :=
  toDigitsCore_no_dash base _ _ [] (by simp)

theorem flatten_intersperse_no_dash (sep : List Char) (l : List (List Char))
    (hsep : '-' ∉ sep) (hl : ∀ x ∈ l, '-' ∉ x) : '-' ∉ (l.intersperse sep).flatten := by
  induction l with
  | nil => simp
  | cons x rest ih =>
    cases rest with
    | nil => simpa using hl x (by simp)
    | cons y rest2 =>
      have ih2 := ih (fun z hz => hl z (List.mem_cons_of_mem _ hz))
      have hx := hl x (by simp)
      simp only [List.intersperse_cons₂, List.flatten_cons, List.mem_append, not_or] at ih2 ⊢
      exact ⟨hx, hsep, ih2⟩

theorem hexDigit_ne_dash (n : Nat) : hexDigit n ≠ '-' := by
  by_cases h : n < 16
  · interval_cases n <;> decide
  · have hlen : ("0123456789abcdef" : String).data.length ≤ n := by
      have h16 : ("0123456789abcdef" : String).data.length = 16 := by decide
      omega
    rw [hexDigit, List.getD_eq_default _ _ hlen]
    decide

theorem hexString_no_dash (ip : IP) : '-' ∉ hexString ip := by
  simp only [hexString, List.mem_flatMap, not_exists, not_and]
  intro b _ hmem
  simp only [List.mem_cons, List.mem_singleton, List.not_mem_nil, or_false] at hmem
  rcases hmem with h | h
  · exact hexDigit_ne_dash _ h.symm
  · exact hexDigit_ne_dash _ h.symm

theorem joinGroups_no_dash (groups : List Nat) : '-' ∉ joinGroups groups := by
  apply flatten_intersperse_no_dash
  · decide
  · intro x hx
    obtain ⟨g, _, rfl⟩ := List.mem_map.mp hx
    exact toDigits_no_dash 16 g

theorem text6_no_dash (groups : List Nat) : '-' ∉ text6 groups := by
  unfold text6
  simp only
  split
  · exact joinGroups_no_dash _
  · simp only [List.mem_append, not_or]
    exact ⟨⟨joinGroups_no_dash _, by decide⟩, joinGroups_no_dash _⟩

theorem text4_no_dash (ip4 : IP) : '-' ∉ text4 ip4 := by
  apply flatten_intersperse_no_dash
  · decide
  · intro x hx
    obtain ⟨g, _, rfl⟩ := List.mem_map.mp hx
    exact toDigits_no_dash 10 g

theorem IP_String_no_dash (ip : IP) : '-' ∉ (IP.String ip).data := by
  unfold IP.String
  split
  · decide
  · split
    · simp only [List.mem_cons, not_or]
      exact ⟨by decide, hexString_no_dash ip⟩
    · split
      · exact text4_no_dash _
      · exact text6_no_dash _

/-- Every address text in the result of `getRealIPs` is free of `-`. -/
theorem getRealIPs_address_no_dash (toLower : String → String)
    (interfaces : Except String (List Interface)) (e : IPInfo)
    (he : e ∈ getRealIPs toLower interfaces) : '-' ∉ e.IPAddress.data := by
  cases interfaces with
  | error err => simp [getRealIPs] at he
  | ok ifaces =>
    obtain ⟨_, _, _, _, _, _, ip, _, _, _, rfl⟩ := (mem_getRealIPs toLower ifaces e).mp he
    exact IP_String_no_dash ip

/-- On scanner output, also of two different scans, the observation key
identifies the pair of interface name and address. -/
theorem getRealIPs_key_inj (toLower : String → String)
    (scan1 scan2 : Except String (List Interface)) (a b : IPInfo)
    (ha : a ∈ getRealIPs toLower scan1) (hb : b ∈ getRealIPs toLower scan2)
    (h : observationKey a = observationKey b) :
    a.InterfaceName = b.InterfaceName ∧ a.IPAddress = b.IPAddress :=
  observationKey_inj a b (getRealIPs_address_no_dash toLower scan1 a ha)
    (getRealIPs_address_no_dash toLower scan2 b hb) h

/-- C9: for every two observed addresses, that is entries of scanner output
(of the same scan or of two scans), the observation key the detector
computes for one equals the one it computes for the other if and only if
they have the same interface name and the same address; the family plays no
part. -/
theorem observationKey_identity (toLower : String → String)
    (scan1 scan2 : Except String (List Interface)) (a b : IPInfo)
    (ha : a ∈ getRealIPs toLower scan1) (hb : b ∈ getRealIPs toLower scan2) :
    observationKey a = observationKey b ↔
      (a.InterfaceName = b.InterfaceName ∧ a.IPAddress = b.IPAddress) := by
  constructor
  · exact getRealIPs_key_inj toLower scan1 scan2 a b ha hb
  · rintro ⟨h1, h2⟩
    simp [observationKey, h1, h2]

/-- C9 at the entry (eth0, 203.0.113.5) of one scan and the entry
(eth0, 2001:db8::1) of a later scan of the same interface. -/
theorem observationKey_identity_witness :
    IPInfo.mk "eth0" "203.0.113.5" "IPv4" ∈
      getRealIPs asciiToLower (.ok [Interface.mk "eth0" 51
        (.ok [Addr.IPNet (some (IPv4 203 0 113 5)) [255, 255, 255, 0]])]) ∧
    IPInfo.mk "eth0" "2001:db8::1" "IPv6" ∈
      getRealIPs asciiToLower (.ok [Interface.mk "eth0" 51
        (.ok [Addr.IPNet (some (IPv4 203 0 113 5)) [255, 255, 255, 0],
              Addr.IPNet (some [0x20, 0x01, 0x0d, 0xb8, 0, 0, 0, 0, 0, 0, 0, 0, 0, 0, 0, 1])
                [255, 255, 255, 255, 255, 255, 255, 255, 0, 0, 0, 0, 0, 0, 0, 0]])]) ∧
    (observationKey (IPInfo.mk "eth0" "203.0.113.5" "IPv4") =
        observationKey (IPInfo.mk "eth0" "2001:db8::1" "IPv6") ↔
      ("eth0" = "eth0" ∧ "203.0.113.5" = "2001:db8::1")) :=
  ⟨by decide, by decide,
    observationKey_identity asciiToLower
      (.ok [Interface.mk "eth0" 51
        (.ok [Addr.IPNet (some (IPv4 203 0 113 5)) [255, 255, 255, 0]])])
      (.ok [Interface.mk "eth0" 51
        (.ok [Addr.IPNet (some (IPv4 203 0 113 5)) [255, 255, 255, 0],
              Addr.IPNet (some [0x20, 0x01, 0x0d, 0xb8, 0, 0, 0, 0, 0, 0, 0, 0, 0, 0, 0, 1])
                [255, 255, 255, 255, 255, 255, 255, 255, 0, 0, 0, 0, 0, 0, 0, 0]])])
      (IPInfo.mk "eth0" "203.0.113.5" "IPv4") (IPInfo.mk "eth0" "2001:db8::1" "IPv6")
      (by decide) (by decide)⟩

end IPRadar
